import Mathlib

namespace MCPGen

/-!
Shallow embedding of the MCP protocol core of the repository:
`mcp-server/backend/mcp_server.py`, `mcp-server/backend/sql_executor.py`
and `mcp-bridge/bridge.py`.

Modelling conventions:
* JSON numbers are restricted to integers (no claim involves non-integral
  numerics).
* `await request.json()` is modelled as an `Option Json` input: `none` is a
  body that fails to parse as JSON.
* Timestamps, UUID generation and client IPs are nondeterministic inputs and
  are passed in as arguments where they matter (the SSE session id) or
  omitted from activity-log entries where no claim inspects them.
* The external database query (`db_connector.execute_query`) is an oracle
  argument; functions that may reach it also return a `Bool` recording
  whether it was invoked, which several claims are about.
-/

/-- Model of Python/JSON values as they flow through the MCP server. -/
inductive Json where
  | null
  | bool (b : Bool)
  | num (n : Int)
  | str (s : String)
  | arr (elems : List Json)
  | obj (fields : List (String × Json))
deriving Inhabited

/-- Python `dict.get` on a JSON object: `none` when the key is absent or the
value is not an object. -/
def Json.get : Json → String → Option Json
  | .obj fields, key => fields.lookup key
  | _, _ => none

/-- Python truthiness (`bool(v)`) for JSON values. -/
def Json.truthy : Json → Bool
  | .null => false
  | .bool b => b
  | .num n => n != 0
  | .str s => s != ""
  | .arr xs => !xs.isEmpty
  | .obj fs => !fs.isEmpty

/-- Comparison of a JSON value against a string column (SQLAlchemy
`Capability.name == tool_name`): only equal strings match. -/
def Json.eqStr : Json → String → Bool
  | .str s, t => s == t
  | _, _ => false

/-- `value is None` for values drawn from a JSON body (JSON `null` decodes to
Python `None`). -/
def Json.isNull : Json → Bool
  | .null => true
  | _ => false

/-- Python `str(v)` for the values interpolated into error messages. The
container cases approximate `repr`; no claim inspects them. -/
def Json.pyStr : Json → String
  | .null => "None"
  | .bool true => "True"
  | .bool false => "False"
  | .num n => toString n
  | .str s => s
  | .arr _ => "[...]"
  | .obj _ => "{...}"

/-- Model of `json.dumps` (indentation and string escaping are not modelled;
no claim inspects the serialized text). -/
def Json.dumps : Json → String
  | .null => "null"
  | .bool true => "true"
  | .bool false => "false"
  | .num n => toString n
  | .str s => "\"" ++ s ++ "\""
  | .arr xs => "[" ++ String.intercalate ", " (xs.attach.map (fun x => Json.dumps x.1)) ++ "]"
  | .obj kvs => "\x7b" ++ String.intercalate ", "
      (kvs.attach.map (fun kv => "\"" ++ kv.1.1 ++ "\": " ++ Json.dumps kv.1.2)) ++ "\x7d"
decreasing_by
  · simp_wf
    have := List.sizeOf_lt_of_mem x.2
    omega
  · simp_wf
    rcases kv with ⟨⟨k, v⟩, hm⟩
    have h1 := List.sizeOf_lt_of_mem hm
    simp at h1 ⊢
    omega

/-! ## asyncio.Queue model -/

/-- `asyncio.Queue(maxsize)`: `maxsize = 0` (the constructor default) means an
unbounded queue. Items are FIFO: `put` appends at the back, `get` takes the
front. -/
structure AQueue (α : Type) where
  maxsize : Nat
  items : List α
deriving Inhabited

/-- A queue is full exactly when it is bounded and at capacity (asyncio:
`maxsize <= 0` means the queue is never full). -/
def AQueue.full (q : AQueue α) : Bool :=
  decide (0 < q.maxsize) && decide (q.maxsize ≤ q.items.length)

/-- Python `queue.put_nowait(x)`: `none` models the `QueueFull` exception. -/
def AQueue.put_nowait (q : AQueue α) (x : α) : Option (AQueue α) :=
  if q.full then none else some { q with items := q.items ++ [x] }

/-- Model of `await queue.put(x)`. In the source this is only ever applied to the
unbounded session queues, where it never blocks; the embedding appends
unconditionally and `AQueue.full` characterises when a bounded put would
have blocked. -/
def AQueue.put (q : AQueue α) (x : α) : AQueue α :=
  { q with items := q.items ++ [x] }

/-! ## Data model (models.py, schemas.py) -/

/-- One entry of a capability's `parameters` JSON column. The rows are
produced by `ParameterDefinition.model_dump()` (schemas.py), so every field
is present: `type` defaults to "string", `description` to "", `required` to
`True`, `default` to `None`. `default = none` models a `None`/absent
default. -/
structure ParamDef where
  name : String
  type : String
  description : String
  required : Bool
  default : Option Json
deriving Inhabited

/-- Fields of `models.Capability` that the MCP core reads. -/
structure Capability where
  name : String
  description : String
  sql_template : String
  parameters : List ParamDef
  is_live : Bool
  connection_id : Int
deriving Inhabited

/-- Fields of `models.DatabaseConnection` that the MCP core reads. -/
structure DatabaseConnection where
  id : Int
  db_type : String
  connection_string : String
deriving Inhabited

/-- The relational store behind the SQLAlchemy session. -/
structure DB where
  capabilities : List Capability
  connections : List DatabaseConnection
deriving Inhabited

/-! ## sql_executor.py -/

/-- Character class `\w` of the `{{(\w+)}}` template pattern. -/
def isWordChar (c : Char) : Bool :=
  c.isAlphanum || c = '_'

/-- Longest prefix of word characters and the rest (the `\w+` part of the
pattern). -/
def takeWord : List Char → List Char × List Char
  | [] => ([], [])
  | c :: cs =>
      if isWordChar c then
        let (w, r) := takeWord cs
        (c :: w, r)
      else ([], c :: cs)

/-- Recursion worker for the template scan, structurally recursive on a
fuel; every step consumes at least one character, so fuel equal to the
input length is enough (the zero-fuel fallback is unreachable from
`findParams`). On a failed match attempt the scanner advances one
character, exactly as the regex engine does for this pattern. -/
def findParamsAux : Nat → List Char → List String
  | 0, _ => []
  | fuel + 1, l =>
    match l with
    | '{' :: '{' :: cs =>
        match takeWord cs with
        | (w, r) =>
          match w, r with
          | _ :: _, '}' :: '}' :: r2 => String.mk w :: findParamsAux fuel r2
          | _, _ => findParamsAux fuel ('{' :: cs)
    | _ :: cs => findParamsAux fuel cs
    | [] => []

/-- Model of `re.findall(r'\{\{(\w+)\}\}', s)`: left-to-right scan collecting
the capture groups. -/
def findParams (l : List Char) : List String :=
  findParamsAux l.length l

/-- Source `SQLExecutor.extract_parameters`: `list(set(findall))`. Python's set
iteration order is unspecified; the embedding dedups keeping the last
occurrence, and no claim depends on the order. -/
def extract_parameters (sql_template : String) : List String :=
  (findParams sql_template.toList).dedup

/-- Recursion worker for `prepare_sql`, fuelled like `findParamsAux`. -/
def prepareSqlCharsAux : Nat → List Char → List Char
  | 0, l => l
  | fuel + 1, l =>
    match l with
    | '{' :: '{' :: cs =>
        match takeWord cs with
        | (w, r) =>
          match w, r with
          | _ :: _, '}' :: '}' :: r2 => ':' :: w ++ prepareSqlCharsAux fuel r2
          | _, _ => '{' :: prepareSqlCharsAux fuel ('{' :: cs)
    | c :: cs => c :: prepareSqlCharsAux fuel cs
    | [] => []

/-- Source `SQLExecutor.prepare_sql`: rewrite `{{p}}` placeholders to `:p`. -/
def prepare_sql (sql_template : String) : String :=
  String.mk (prepareSqlCharsAux sql_template.toList.length sql_template.toList)

/-- Python `int(s)` on a string: surrounding whitespace stripped, optional
sign, decimal digits (digit-group underscores are not modelled). -/
def parsePyInt (s : String) : Option Int :=
  let t := s.trim
  let t := if t.startsWith "+" then t.drop 1 else t
  if t = "" then none
  else if t = "-" then none
  else
    let digits := if t.startsWith "-" then t.drop 1 else t
    if digits.toList.all Char.isDigit then t.toInt? else none

/-- Source `SQLExecutor._convert_type`. `Except.error` models the raised
`ValueError`; the exception-specific tail of the message is not modelled (no
claim reads it). Python `float` is restricted to integral values, matching
the integral `Json.num`. -/
def convert_type (value : Json) (param_type : String) : Except String Json :=
  let convErr : Except String Json :=
    .error ("Cannot convert value '" ++ value.pyStr ++ "' to type '" ++ param_type ++ "'")
  if param_type = "integer" then
    match value with
    | .num n => .ok (.num n)
    | .bool b => .ok (.num (if b then 1 else 0))
    | .str s =>
        match parsePyInt s with
        | some n => .ok (.num n)
        | none => convErr
    | _ => convErr
  else if param_type = "float" then
    match value with
    | .num n => .ok (.num n)
    | .bool b => .ok (.num (if b then 1 else 0))
    | .str s =>
        match parsePyInt s with
        | some n => .ok (.num n)
        | none => convErr
    | _ => convErr
  else if param_type = "boolean" then
    match value with
    | .bool b => .ok (.bool b)
    | .str s => .ok (.bool (s.toLower = "true" || s.toLower = "1" || s.toLower = "yes"))
    | v => .ok (.bool v.truthy)
  else if param_type = "date" then
    match value with
    | .str s => .ok (.str s)
    | v => .ok (.str v.pyStr)
  else
    .ok (.str value.pyStr)

/-- The `param_defs = {p["name"]: p for p in parameter_definitions}` lookup:
a dict comprehension lets later duplicates overwrite earlier ones, hence the
reverse-find. -/
def lookupDef (parameter_definitions : List ParamDef) (param_name : String) : Option ParamDef :=
  parameter_definitions.reverse.find? (fun p => p.name == param_name)

/-- The `for param_name in expected_params` loop of
`SQLExecutor.validate_parameters`. The prepared value `none` models Python
`None` (a JSON `null` argument value is Python `None` and skips type
conversion); `Except.error` models the raised `ValueError`. -/
def prepareParams (provided_params : List (String × Json))
    (parameter_definitions : List ParamDef) :
    List String → Except String (List (String × Option Json))
  | [] => .ok []
  | param_name :: rest =>
      let param_def := lookupDef parameter_definitions param_name
      let is_required := (param_def.map (fun p => p.required)).getD true
      let default_value := param_def.bind (fun p => p.default)
      let param_type := (param_def.map (fun p => p.type)).getD "string"
      let valueE : Except String (Option Json) :=
        match provided_params.lookup param_name with
        | some v => .ok (if v.isNull then none else some v)
        | none =>
            match default_value with
            | some d => .ok (some d)
            | none =>
                if !is_required then .ok none
                else .error ("Required parameter '" ++ param_name ++ "' not provided")
      match valueE with
      | .error e => .error e
      | .ok none =>
          match prepareParams provided_params parameter_definitions rest with
          | .error e => .error e
          | .ok restPrepared => .ok ((param_name, none) :: restPrepared)
      | .ok (some v) =>
          match convert_type v param_type with
          | .error e => .error e
          | .ok v2 =>
              match prepareParams provided_params parameter_definitions rest with
              | .error e => .error e
              | .ok restPrepared => .ok ((param_name, some v2) :: restPrepared)

/-- Source `SQLExecutor.validate_parameters`. -/
def validate_parameters (sql_template : String) (provided_params : List (String × Json))
    (parameter_definitions : List ParamDef) : Except String (List (String × Option Json)) :=
  prepareParams provided_params parameter_definitions (extract_parameters sql_template)

/-- Result of `db_connector.execute_query` (the external collaborator). -/
structure QueryResult where
  success : Bool
  data : Json
  row_count : Int
  error : String
deriving Inhabited

/-- The external query collaborator, abstracted as an oracle from the
prepared SQL text and prepared parameters. -/
abbrev QueryOracle : Type :=
  String → List (String × Option Json) → QueryResult

/-- Result dict of `SQLExecutor.execute` (`execution_time_ms` is wall-clock
time and is not modelled). -/
structure ExecResult where
  success : Bool
  data : Option Json
  error : Option String
deriving Inhabited

/-- Source `SQLExecutor.execute`. The second component records whether
`connector.execute_query` was invoked (instrumentation for the
no-execution claims). -/
def SQLExecutor.execute (oracle : QueryOracle) (sql_template : String)
    (params : List (String × Json)) (parameter_definitions : List ParamDef) :
    ExecResult × Bool :=
  match validate_parameters sql_template params parameter_definitions with
  | .error e => ({ success := false, data := none, error := some e }, false)
  | .ok prepared_params =>
      let sql := prepare_sql sql_template
      let result := oracle sql prepared_params
      if result.success then
        ({ success := true, data := some result.data, error := none }, true)
      else
        ({ success := false, data := none, error := some result.error }, true)

/-! ## mcp_server.py — JSON-RPC dispatcher (MCPProtocolHandler) -/

/-- Python dict assignment `d[k] = v`: overwrite in place if the key exists,
else append (insertion order preserved). -/
def dictInsert {β : Type} (d : List (String × β)) (k : String) (v : β) : List (String × β) :=
  if (d.lookup k).isSome then
    d.map (fun kv => if kv.1 = k then (k, v) else kv)
  else d ++ [(k, v)]

def SUPPORTED_PROTOCOL_VERSION : String := "2024-11-05"

/-- Source `MCPProtocolHandler.get_live_capabilities`: the live filter of the
registry query, in registry order. -/
def get_live_capabilities (db : DB) : List Capability :=
  db.capabilities.filter (fun c => c.is_live)

/-- The `json_type_map.get(param_type, "string")` lookup in
`capability_to_mcp_tool`. -/
def json_type_map (t : String) : String :=
  if t = "string" then "string"
  else if t = "integer" then "integer"
  else if t = "float" then "number"
  else if t = "boolean" then "boolean"
  else if t = "date" then "string"
  else "string"

/-- Loop body of `MCPProtocolHandler.capability_to_mcp_tool`: accumulate the
`properties` dict and the `required` list over one parameter definition. -/
def toolParamStep (acc : List (String × Json) × List String) (param : ParamDef) :
    List (String × Json) × List String :=
  let prop : Json := .obj [("type", .str (json_type_map param.type)),
                           ("description", .str param.description)]
  let prop : Json :=
    if param.type = "date" then
      .obj [("type", .str (json_type_map param.type)),
            ("description", .str param.description),
            ("format", .str "date")]
    else prop
  let properties := dictInsert acc.1 param.name prop
  let required := if param.required then acc.2 ++ [param.name] else acc.2
  (properties, required)

/-- Source `MCPProtocolHandler.capability_to_mcp_tool`. -/
def capability_to_mcp_tool (capability : Capability) : Json :=
  let pr := capability.parameters.foldl toolParamStep ([], [])
  .obj [("name", .str capability.name),
        ("description", .str capability.description),
        ("inputSchema", .obj [("type", .str "object"),
                              ("properties", .obj pr.1),
                              ("required", .arr (pr.2.map Json.str))])]

/-- The JSON-Schema property descriptor that the spec's mapping table
prescribes for one parameter definition; stated from the spec's words, to
be compared against what `capability_to_mcp_tool` builds. -/
def paramSchemaSpec (p : ParamDef) : Json :=
  .obj ([("type", .str (json_type_map p.type)), ("description", .str p.description)]
    ++ (if p.type = "date" then [("format", .str "date")] else []))

/-- Source `MCPProtocolHandler.handle_initialize` (ignores params). -/
def handle_initialize : Json :=
  .obj [("protocolVersion", .str SUPPORTED_PROTOCOL_VERSION),
        ("capabilities", .obj [("tools", .obj [])]),
        ("serverInfo", .obj [("name", .str "mcp-server-generator"),
                             ("version", .str "1.0.0")])]

/-- Source `MCPProtocolHandler.handle_tools_list` (ignores params). -/
def handle_tools_list (db : DB) : Json :=
  .obj [("tools", .arr ((get_live_capabilities db).map capability_to_mcp_tool))]

/-- Source `MCPProtocolHandler.handle_tools_call`. `Except.error` models a raised
exception (all are `ValueError`s here); the `Bool` records whether the
external query collaborator was invoked. Non-object `params` raise the
Python `AttributeError` of `params.get`; its exact text is not modelled. -/
def handle_tools_call (db : DB) (oracle : QueryOracle) (params : Option Json) :
    Except String Json × Bool :=
  match params with
  | some (.obj fields) =>
      let tool_name := ((Json.obj fields).get "name").getD .null
      let args : List (String × Json) :=
        match (Json.obj fields).get "arguments" with
        | some (.obj afs) => afs
        | _ => []
      if !tool_name.truthy then (.error "Tool name is required", false)
      else
        match db.capabilities.find? (fun c => tool_name.eqStr c.name && c.is_live) with
        | none => (.error ("Tool '" ++ tool_name.pyStr ++ "' not found or not live"), false)
        | some capability =>
            match db.connections.find? (fun conn => conn.id == capability.connection_id) with
            | none =>
                (.error ("Database connection for tool '" ++ tool_name.pyStr ++ "' not found"),
                 false)
            | some _connection =>
                let er := SQLExecutor.execute oracle capability.sql_template args
                    capability.parameters
                if er.1.success then
                  (.ok (.obj [("content", .arr [.obj [("type", .str "text"),
                      ("text", .str (((er.1.data).getD .null).dumps))]])]), er.2)
                else
                  (.error ("Query execution failed: " ++ ((er.1.error).getD "None")), er.2)
  | _ => (.error "object has no attribute 'get'", false)

/-- JSON-RPC success envelope, as built in `handle_request`. -/
def rpcResult (id_ : Json) (result : Json) : Json :=
  .obj [("jsonrpc", .str "2.0"), ("id", id_), ("result", result)]

/-- JSON-RPC error envelope, as built in `handle_request`. -/
def rpcError (id_ : Json) (code : Int) (message : String) : Json :=
  .obj [("jsonrpc", .str "2.0"), ("id", id_),
        ("error", .obj [("code", .num code), ("message", .str message)])]

/-- Hashability of a JSON value when used as a Python dict key
(`handlers.get(method)`): lists and dicts are unhashable, every other JSON
value hashes. -/
def methodHashable : Json → Bool
  | .arr _ => false
  | .obj _ => false
  | _ => true

/-- Source `MCPProtocolHandler.handle_request`: route by method name; unknown
methods get -32601; handler exceptions raised inside the `try` are caught
and become -32000. An `Except.error` result models an uncaught Python
exception escaping `handle_request`: `request.get` raises `AttributeError`
when the decoded request is not a dict, and `handlers.get(method)` — which
sits outside the `try` — raises `TypeError` when the method value is
unhashable (a list or dict); the exact exception texts are not modelled.
The `Bool` records whether the external query collaborator was invoked. -/
def handle_request (db : DB) (oracle : QueryOracle) (request : Json) :
    Except String (Json × Bool) :=
  match request with
  | .obj rfs =>
      let method := ((Json.obj rfs).get "method").getD (.str "")
      let params := (Json.obj rfs).get "params"
      let request_id := ((Json.obj rfs).get "id").getD .null
      match method with
      | .arr _ => .error "unhashable type"
      | .obj _ => .error "unhashable type"
      | _ =>
          let dispatch : Option (Except String Json × Bool) :=
            if method.eqStr "initialize" then some (.ok handle_initialize, false)
            else if method.eqStr "tools/list" then some (.ok (handle_tools_list db), false)
            else if method.eqStr "tools/call" then some (handle_tools_call db oracle params)
            else none
          .ok (match dispatch with
               | none => (rpcError request_id (-32601)
                   ("Method '" ++ method.pyStr ++ "' not found"), false)
               | some (.ok result, inv) => (rpcResult request_id result, inv)
               | some (.error e, inv) => (rpcError request_id (-32000) e, inv))
  | _ => .error "object has no attribute 'get'"

/-! ## mcp_server.py — activity log (MCPActivityLog) -/

/-- One activity entry; the nondeterministic `id`/`timestamp` fields are not
modelled (no claim reads them). -/
structure LogEntry where
  event_type : String
  client_ip : Option String
  session_id : Option String
  data : Json
deriving Inhabited

/-- State of `MCPActivityLog`: the ring buffer (`deque(maxlen=max_entries)`) plus the
listener queues. -/
structure MCPActivityLog where
  max_entries : Nat
  entries : List LogEntry
  listeners : List (AQueue LogEntry)
deriving Inhabited

/-- Constructor `MCPActivityLog()` with the default `max_entries=100`. -/
def MCPActivityLog.init : MCPActivityLog :=
  { max_entries := 100, entries := [], listeners := [] }

/-- Python `deque.append` with `maxlen`: evict from the left when over capacity. -/
def dequeAppend (maxlen : Nat) (es : List LogEntry) (e : LogEntry) : List LogEntry :=
  let es := es ++ [e]
  if maxlen < es.length then es.drop (es.length - maxlen) else es

/-- Source `MCPActivityLog.log`: append to the ring buffer, then `put_nowait` to
every listener, silently dropping on `QueueFull`. -/
def MCPActivityLog.log (l : MCPActivityLog) (e : LogEntry) : MCPActivityLog :=
  { l with
    entries := dequeAppend l.max_entries l.entries e,
    listeners := l.listeners.map (fun q => (q.put_nowait e).getD q) }

/-- Source `MCPActivityLog.add_listener`: a fresh `asyncio.Queue(maxsize=100)` is
registered and returned. -/
def MCPActivityLog.add_listener (l : MCPActivityLog) : MCPActivityLog × AQueue LogEntry :=
  let queue : AQueue LogEntry := { maxsize := 100, items := [] }
  ({ l with listeners := l.listeners ++ [queue] }, queue)

/-! ## mcp_server.py — SSE transport and messages endpoint -/

/-- The session map `sse_sessions : Dict[str, asyncio.Queue]`. -/
abbrev Sessions : Type :=
  List (String × AQueue Json)

/-- The request attributes read when building the messages-endpoint URL
(`mcp_sse`, lines 314-322). -/
structure SseRequestInfo where
  x_forwarded_proto : Option String
  x_forwarded_host : Option String
  x_forwarded_port : Option String
  host_header : Option String
  url_scheme : String
  url_netloc : String
deriving Inhabited

/-- URL construction of `mcp_sse`: forwarded headers win over the request's
own scheme/host; a forwarded non-standard port is appended when the host
carries none. -/
def buildMessagesEndpoint (req : SseRequestInfo) (session_id : String) : String :=
  let scheme := req.x_forwarded_proto.getD req.url_scheme
  let host := req.x_forwarded_host.getD (req.host_header.getD req.url_netloc)
  let port := req.x_forwarded_port.getD ""
  let host :=
    if port ≠ "" && !host.contains ':' && port ≠ "80" && port ≠ "443" then
      host ++ ":" ++ port
    else host
  scheme ++ "://" ++ host ++ "/mcp/messages?session_id=" ++ session_id

/-- Events yielded by the SSE generators. A `message` event's `data` is the
`json.dumps` of the queued envelope; the embedding keeps the envelope
itself. -/
inductive SseEvent where
  | endpoint (data : String)
  | message (data : Json)
  | ping
deriving Inhabited

/-- What one iteration of the `event_generator` loop observed on
`message_queue.get`: a queued message within the 30s timeout, or
`asyncio.TimeoutError`. -/
inductive CycleInput where
  | msg (m : Json)
  | timeout
deriving Inhabited

/-- The `while True` loop of `event_generator` in `mcp_sse`, driven by a
schedule of dequeue outcomes, each paired with what
`await request.is_disconnected()` would report at that iteration. Returns
the yielded events and whether the loop exited via `break`. On a message
the loop yields it and then checks for disconnect; on a timeout it yields a
`ping` and `continue`s, which skips the disconnect check. -/
def runCycles : List (CycleInput × Bool) → List SseEvent × Bool
  | [] => ([], false)
  | (.msg m, disconnected) :: rest =>
      if disconnected then ([.message m], true)
      else
        let r := runCycles rest
        (.message m :: r.1, r.2)
  | (.timeout, _) :: rest =>
      let r := runCycles rest
      (.ping :: r.1, r.2)

/-- Generator `event_generator` of `mcp_sse`: the endpoint event is yielded first,
then the loop runs. -/
def event_generator (messages_endpoint : String) (cycles : List (CycleInput × Bool)) :
    List SseEvent :=
  .endpoint messages_endpoint :: (runCycles cycles).1

/-- The `finally` block of `event_generator`: remove the session from the
map (it runs whenever the generator is closed, however the loop exits). -/
def sseCleanup (sessions : Sessions) (session_id : String) : Sessions :=
  sessions.filter (fun kv => kv.1 ≠ session_id)

/-- Connection setup of `mcp_sse` (lines 306-322): a fresh unbounded
`asyncio.Queue()` is registered under the freshly generated session id
(passed in, as `uuid.uuid4()` is nondeterministic), and the messages
endpoint URL is computed. -/
def mcp_sse_accept (req : SseRequestInfo) (session_id : String) (sessions : Sessions) :
    Sessions × String :=
  let message_queue : AQueue Json := { maxsize := 0, items := [] }
  (dictInsert sessions session_id message_queue, buildMessagesEndpoint req session_id)

/-- A whole `mcp_sse` connection: register the session, run the generator on
the given schedule, and apply the `finally` cleanup at generator close.
Returns the emitted events and the session map after cleanup. -/
def mcp_sse_run (req : SseRequestInfo) (session_id : String) (sessions : Sessions)
    (cycles : List (CycleInput × Bool)) : List SseEvent × Sessions :=
  let acc := mcp_sse_accept req session_id sessions
  (event_generator acc.2 cycles, sseCleanup acc.1 session_id)

/-- HTTP-level outcome of a FastAPI handler: a `JSONResponse` (status 200
unless set otherwise) or a raised `HTTPException`. -/
inductive HttpResult where
  | json (status : Nat) (body : Json)
  | httpError (status : Nat) (detail : String)
deriving Inhabited

/-- Enqueue onto the queue registered under `session_id`
(`await sse_sessions[session_id].put(x)`). -/
def sessionsPut (sessions : Sessions) (session_id : String) (x : Json) : Sessions :=
  sessions.map (fun kv => if kv.1 = session_id then (kv.1, kv.2.put x) else kv)

/-- The -32700 envelope both transports synthesize on a body that fails to
parse as JSON. -/
def parseErrorEnvelope : Json :=
  .obj [("jsonrpc", .str "2.0"), ("id", .null),
        ("error", .obj [("code", .num (-32700)), ("message", .str "Parse error")])]

/-- Outcome of one `mcp_messages` POST. `dispatched` records whether
`handler.handle_request` was reached. -/
structure MessagesOutcome where
  result : HttpResult
  sessions : Sessions
  log : MCPActivityLog
  dispatched : Bool
deriving Inhabited

/-- Endpoint `POST /mcp/messages` (`mcp_messages`): 404 when the session id is not
registered; on an unparseable body (`body = none`) enqueue the -32700
envelope and acknowledge with a distinct status object; on a body parsed to
a JSON object, dispatch, enqueue the response envelope and also return it
synchronously. A body that parses to a non-object makes
`body.get("method", "unknown")` raise `AttributeError` before any dispatch,
and an object body with an unhashable `method` value makes `handle_request`
raise `TypeError`; neither is caught (the `try` around dispatch has only a
`finally`), so FastAPI answers HTTP 500 and nothing is enqueued. -/
def mcp_messages (db : DB) (oracle : QueryOracle) (log : MCPActivityLog)
    (client_ip : Option String) (sessions : Sessions) (session_id : String)
    (body : Option Json) : MessagesOutcome :=
  if (sessions.lookup session_id).isNone then
    { result := .httpError 404 "Session not found. Connect to /mcp/sse first.",
      sessions := sessions,
      log := log.log { event_type := "error", client_ip := client_ip,
                       session_id := some session_id,
                       data := .obj [("error", .str "Session not found"),
                                     ("session_id", .str session_id)] },
      dispatched := false }
  else
    match body with
    | none =>
        { result := .json 200 (.obj [("status", .str "error"),
                                     ("message", .str "Parse error")]),
          sessions := sessionsPut sessions session_id parseErrorEnvelope,
          log := log.log { event_type := "error", client_ip := client_ip,
                           session_id := some session_id,
                           data := .obj [("error", .str "Parse error")] },
          dispatched := false }
    | some (.obj bfs) =>
        let method := ((Json.obj bfs).get "method").getD (.str "unknown")
        let log := log.log { event_type := "sse_request", client_ip := client_ip,
                             session_id := some session_id,
                             data := .obj [("method", method)] }
        match handle_request db oracle (.obj bfs) with
        | .ok (response, _inv) =>
            let log := log.log { event_type := "sse_response", client_ip := client_ip,
                                 session_id := some session_id,
                                 data := .obj [("method", method)] }
            { result := .json 200 response,
              sessions := sessionsPut sessions session_id response,
              log := log,
              dispatched := true }
        | .error _ =>
            { result := .httpError 500 "Internal Server Error",
              sessions := sessions,
              log := log,
              dispatched := true }
    | some _ =>
        { result := .httpError 500 "Internal Server Error",
          sessions := sessions,
          log := log,
          dispatched := false }

/-- Endpoint `POST /mcp` (`mcp_endpoint`): an unparseable body gets the -32700
envelope as a 200 `JSONResponse`; a body parsed to a JSON object gets the
dispatcher's envelope as a 200 `JSONResponse`. A non-object body makes
`body.get("method", "unknown")` raise `AttributeError`, and an uncaught
exception out of `handle_request` likewise escapes: FastAPI answers
HTTP 500. -/
def mcp_endpoint (db : DB) (oracle : QueryOracle) (body : Option Json) : HttpResult :=
  match body with
  | none => .json 200 parseErrorEnvelope
  | some (.obj bfs) =>
      match handle_request db oracle (.obj bfs) with
      | .ok (response, _inv) => .json 200 response
      | .error _ => .httpError 500 "Internal Server Error"
  | some _ => .httpError 500 "Internal Server Error"

/-! ## bridge.py — stdio↔SSE bridge

`main` runs `asyncio.gather(read_stdin(), process_sse(), forward_messages())`
and `asyncio.run(main())` returns only when `gather` does, i.e. when all
three coroutines have returned. Each coroutine is embedded as a small-step
function on its own state. -/

/-- One scheduling step of a coroutine: it did some work and continues, it
is blocked on an `await` with nothing available, or its body returned. -/
inductive TaskStep (σ : Type) where
  | next (s : σ)
  | block
  | finish
deriving Inhabited

/-- State of `read_stdin`: the chunks still to be delivered by
`reader.read(4096)` (exhaustion of the list is EOF, where `read` returns an
empty chunk) and the accumulated parse buffer. -/
structure StdinState where
  pending : List String
  buffer : String
deriving Inhabited

/-- Model of `json.JSONDecoder().raw_decode`, abstracted: on success, the parsed
value and the number of consumed characters (always positive for the real
decoder). -/
abbrev RawDecoder : Type :=
  String → Option (Json × Nat)

/-- The inner `while buffer` parse loop of `read_stdin`: drain complete JSON
values off the front of the buffer, stop on incomplete input. Fuel bounds
the iteration count (the real decoder always consumes at least one
character per parsed value). -/
def drainBuffer (decode : RawDecoder) : Nat → String → String × List Json
  | 0, buffer => (buffer, [])
  | fuel + 1, buffer =>
      let buffer := buffer.trimLeft
      if buffer = "" then (buffer, [])
      else
        match decode buffer with
        | none => (buffer, [])
        | some (msg, idx) =>
            let r := drainBuffer decode fuel (buffer.drop idx)
            (r.1, msg :: r.2)

/-- One iteration of the `while True` loop of `read_stdin`: an empty chunk
(EOF) breaks the loop, so the coroutine returns; otherwise the chunk is
appended to the buffer and complete JSON values are parsed off and
enqueued. -/
def read_stdin_step (decode : RawDecoder) (st : StdinState) :
    TaskStep StdinState × List Json :=
  match st.pending with
  | [] => (.finish, [])
  | chunk :: rest =>
      if chunk = "" then (.finish, [])
      else
        let buffer := st.buffer ++ chunk
        let r := drainBuffer decode (buffer.length + 1) buffer
        (.next { pending := rest, buffer := r.1 }, r.2)

/-- State of `process_sse`: the lines still buffered from the SSE response,
whether the server has closed the stream, and the mutable
`event_type`/`messages_endpoint` variables. -/
structure SseReaderState where
  lines : List String
  closed : Bool
  event_type : Option String
  endpoint_known : Option String
deriving Inhabited

/-- One iteration of the `async for line in sse_response.content` loop of
`process_sse`: the loop body classifies `event:`/`data:` lines; the loop
(and the coroutine) ends only when the stream is exhausted and closed. -/
def process_sse_step (st : SseReaderState) : TaskStep SseReaderState × List String :=
  match st.lines with
  | [] => if st.closed then (.finish, []) else (.block, [])
  | line :: rest =>
      let line := line.trim
      if line.startsWith "event:" then
        (.next { st with lines := rest, event_type := some ((line.drop 6).trim) }, [])
      else if line.startsWith "data:" then
        let data := (line.drop 5).trim
        if st.event_type = some "endpoint" then
          (.next { st with lines := rest, endpoint_known := some data }, [])
        else if st.event_type = some "message" && data ≠ "" then
          (.next { st with lines := rest }, [data])
        else
          (.next { st with lines := rest }, [])
      else
        (.next { st with lines := rest }, [])

/-- State of `forward_messages`: the in-process `stdin_queue` and the
`messages_endpoint` nonlocal. -/
structure FwdState where
  queue : List Json
  endpoint : Option String
deriving Inhabited

/-- One iteration of the `while True` loop of `forward_messages`: block on
`stdin_queue.get()` when empty; poll (`await asyncio.sleep(0.1)`) while the
endpoint is unknown; otherwise POST the message (errors are printed and
swallowed). The body has no `return` or `break`: no input yields
`TaskStep.finish`. -/
def forward_messages_step (st : FwdState) : TaskStep FwdState × List (String × Json) :=
  match st.queue with
  | [] => (.block, [])
  | msg :: rest =>
      match st.endpoint with
      | none => (.block, [])
      | some url => (.next { st with queue := rest }, [(url, msg)])

/-- Whole-bridge state: the three coroutine states plus whether each
coroutine has returned. -/
structure BridgeState where
  stdin : StdinState
  sse : SseReaderState
  fwd : FwdState
  stdinDone : Bool
  sseDone : Bool
  fwdDone : Bool
deriving Inhabited

/-- Predicate for `asyncio.gather` (and hence `asyncio.run(main())`) completes exactly
when all three coroutines have returned. -/
def bridgeDone (st : BridgeState) : Bool :=
  st.stdinDone && st.sseDone && st.fwdDone

/-- One cooperative scheduling round: each coroutine that has not yet
returned takes one step; messages parsed from stdin are enqueued for the
forwarder, and an SSE `endpoint` event resolves the forwarder's endpoint. -/
def bridgeStep (decode : RawDecoder) (st : BridgeState) : BridgeState :=
  let (s1, stdinDone, msgs) :=
    if st.stdinDone then (st.stdin, true, [])
    else
      match read_stdin_step decode st.stdin with
      | (.finish, ms) => (st.stdin, true, ms)
      | (.block, ms) => (st.stdin, false, ms)
      | (.next s, ms) => (s, false, ms)
  let (s2, sseDone) :=
    if st.sseDone then (st.sse, true)
    else
      match process_sse_step st.sse with
      | (.finish, _) => (st.sse, true)
      | (.block, _) => (st.sse, false)
      | (.next s, _) => (s, false)
  let fwdIn : FwdState :=
    { queue := st.fwd.queue ++ msgs,
      endpoint := st.fwd.endpoint.orElse (fun _ => s2.endpoint_known) }
  let (s3, fwdDone) :=
    if st.fwdDone then (st.fwd, true)
    else
      match forward_messages_step fwdIn with
      | (.finish, _) => (st.fwd, true)
      | (.block, _) => (fwdIn, false)
      | (.next s, _) => (s, false)
  { stdin := s1, sse := s2, fwd := s3,
    stdinDone := stdinDone, sseDone := sseDone, fwdDone := fwdDone }

/-! ## Concrete instances used to evaluate the development -/

/-- A query oracle whose backing query always fails. -/
def oracle0 : QueryOracle :=
  fun _ _ => { success := false, data := .null, row_count := 0, error := "boom" }

/-- A query oracle whose backing query succeeds with an empty row set. -/
def oracleOk : QueryOracle :=
  fun _ _ => { success := true, data := .arr [], row_count := 0, error := "" }

/-- A raw decoder that never finds a complete JSON value. -/
def decode0 : RawDecoder :=
  fun _ => none

/-- A live capability whose parameter list declares a required parameter
`x` (no default) that does not occur in its SQL template. Such a capability
is constructible through the capability CRUD API, which never checks the
parameter list against the template. -/
def capPhantom : Capability :=
  { name := "list_rows", description := "d", sql_template := "SELECT 1",
    parameters := [{ name := "x", type := "string", description := "",
                     required := true, default := none }],
    is_live := true, connection_id := 1 }

/-- A live capability whose SQL template does use its required parameter. -/
def capTemplated : Capability :=
  { name := "by_x", description := "d", sql_template := "SELECT * FROM t WHERE x = {{x}}",
    parameters := [{ name := "x", type := "string", description := "",
                     required := true, default := none }],
    is_live := true, connection_id := 1 }

/-- A database holding both sample capabilities and their connection. -/
def dbSample : DB :=
  { capabilities := [capPhantom, capTemplated],
    connections := [{ id := 1, db_type := "sqlite", connection_string := "cs" }] }

/-- A capability with one parameter of each mapped type, the date one
optional. -/
def capTyped : Capability :=
  { name := "typed", description := "typed tool",
    sql_template := "SELECT 1",
    parameters :=
      [{ name := "a", type := "string", description := "da", required := true, default := none },
       { name := "b", type := "integer", description := "db", required := true, default := none },
       { name := "c", type := "float", description := "dc", required := false, default := none },
       { name := "d", type := "boolean", description := "dd", required := true, default := none },
       { name := "e", type := "date", description := "de", required := false, default := none }],
    is_live := true, connection_id := 1 }

/-- A `tools/call` request for `capPhantom` supplying no arguments. -/
def reqPhantomCall : Json :=
  .obj [("method", .str "tools/call"), ("id", .num 1),
        ("params", .obj [("name", .str "list_rows"), ("arguments", .obj [])])]

/-- Bridge state at the moment local stdin reaches EOF while the SSE stream
is still open (no endpoint learned, nothing queued). -/
def bridgeEof : BridgeState :=
  { stdin := { pending := [], buffer := "" },
    sse := { lines := [], closed := false, event_type := none, endpoint_known := none },
    fwd := { queue := [], endpoint := none },
    stdinDone := false, sseDone := false, fwdDone := false }

/-- A sample activity-log entry. -/
def entrySample : LogEntry :=
  { event_type := "error", client_ip := none, session_id := none, data := Json.null }

/-- A listener queue at its 100-entry capacity. -/
def qlFull : AQueue LogEntry :=
  { maxsize := 100, items := List.replicate 100 entrySample }

/-- An SSE request with no forwarding headers. -/
def reqPlain : SseRequestInfo :=
  { x_forwarded_proto := none, x_forwarded_host := none, x_forwarded_port := none,
    host_header := some "example.com", url_scheme := "http", url_netloc := "example.com" }

/-! ## Helper lemmas -/

theorem lookup_append_of_none {β : Type} (l1 l2 : List (String × β)) (k : String)
    (h : l1.lookup k = none) : (l1 ++ l2).lookup k = l2.lookup k := by
  induction l1 with
  | nil => simp
  | cons a l ih =>
      obtain ⟨a1, a2⟩ := a
      by_cases hk : k = a1
      · subst hk
        simp [List.lookup_cons] at h
      · simp only [List.cons_append, List.lookup_cons, beq_false_of_ne hk] at h ⊢
        exact ih h

theorem lookup_filter_ne (sessions : Sessions) (sid : String) :
    (sessions.filter (fun kv => kv.1 ≠ sid)).lookup sid = none := by
  induction sessions with
  | nil => simp
  | cons a l ih =>
      obtain ⟨a1, a2⟩ := a
      by_cases hk : a1 = sid
      · simpa [List.filter_cons, hk] using ih
      · have hne : (fun kv : String × AQueue Json => kv.1 ≠ sid) (a1, a2) = True := by
          simp [hk]
        simp only [List.filter_cons, hne, decide_true_eq_true]
        simpa [List.filter_cons, hk, List.lookup_cons,
          beq_false_of_ne (Ne.symm hk)] using ih

theorem lookup_sessionsPut (sessions : Sessions) (sid : String) (q : AQueue Json) (x : Json)
    (h : sessions.lookup sid = some q) :
    (sessionsPut sessions sid x).lookup sid = some (q.put x) := by
  induction sessions with
  | nil => simp at h
  | cons a l ih =>
      obtain ⟨a1, a2⟩ := a
      by_cases hk : sid = a1
      · subst hk
        simp only [List.lookup_cons, beq_self_eq_true] at h
        simp only [Option.some.injEq] at h
        subst h
        simp [sessionsPut, List.lookup_cons]
      · simp only [List.lookup_cons, beq_false_of_ne hk] at h
        have step := ih h
        simp only [sessionsPut, List.map_cons] at step ⊢
        rw [if_neg (by simpa using Ne.symm hk)]
        simpa [List.lookup_cons, beq_false_of_ne hk] using step

theorem lookup_dictInsert {β : Type} (d : List (String × β)) (k : String) (v : β) :
    (dictInsert d k v).lookup k = some v := by
  unfold dictInsert
  split
  · rename_i hsome
    induction d with
    | nil => simp at hsome
    | cons a l ih =>
        obtain ⟨a1, a2⟩ := a
        by_cases hk : k = a1
        · subst hk
          simp [List.lookup_cons]
        · simp only [List.lookup_cons, beq_false_of_ne hk] at hsome
          simp only [List.map_cons]
          rw [if_neg (by simpa using Ne.symm hk)]
          simpa [List.lookup_cons, beq_false_of_ne hk] using ih hsome
  · rename_i hnone
    have h0 : d.lookup k = none := by
      cases hl : d.lookup k with
      | none => rfl
      | some w => rw [hl] at hnone; simp at hnone
    rw [lookup_append_of_none d [(k, v)] k h0]
    simp [List.lookup_cons]

theorem runCycles_events (cycles : List (CycleInput × Bool)) :
    ∀ e ∈ (runCycles cycles).1, (∃ m, e = SseEvent.message m) ∨ e = SseEvent.ping := by
  induction cycles with
  | nil => simp [runCycles]
  | cons cb rest ih =>
      obtain ⟨c, d⟩ := cb
      cases c with
      | msg m =>
          by_cases hd : d = true
          · subst hd
            simp [runCycles]
          · rw [runCycles, if_neg (by simpa using hd)]
            intro e he
            rcases List.mem_cons.mp he with h1 | h2
            · exact Or.inl ⟨m, h1⟩
            · exact ih e h2
      | timeout =>
          intro e he
          rw [runCycles] at he
          rcases List.mem_cons.mp he with h1 | h2
          · exact Or.inr h1
          · exact ih e h2

theorem foldl_put (msgs : List Json) (q : AQueue Json) :
    (msgs.foldl AQueue.put q).items = q.items ++ msgs
    ∧ (msgs.foldl AQueue.put q).maxsize = q.maxsize := by
  induction msgs generalizing q with
  | nil => simp
  | cons m rest ih =>
      simp only [List.foldl_cons]
      have := ih (q.put m)
      simpa [AQueue.put] using this

theorem handle_request_ok_of_hashable (db : DB) (oracle : QueryOracle)
    (rfs : List (String × Json))
    (hm : methodHashable (((Json.obj rfs).get "method").getD (Json.str "")) = true) :
    ∃ res : Json × Bool, handle_request db oracle (Json.obj rfs) = Except.ok res := by
  rcases hr : handle_request db oracle (Json.obj rfs) with e | res
  · exfalso
    rcases hmv : ((Json.obj rfs).get "method").getD (Json.str "") with _ | b | n | s | xs | fs
    · simp only [handle_request, hmv] at hr
      exact Except.noConfusion hr
    · simp only [handle_request, hmv] at hr
      exact Except.noConfusion hr
    · simp only [handle_request, hmv] at hr
      exact Except.noConfusion hr
    · simp only [handle_request, hmv] at hr
      exact Except.noConfusion hr
    · rw [hmv] at hm
      simp [methodHashable] at hm
    · rw [hmv] at hm
      simp [methodHashable] at hm
  · exact ⟨res, rfl⟩

/-! ## Claims -/

/-- C1: for every accepted SSE connection, the first event emitted on the
stream is an `endpoint` event whose payload is the fully-qualified messages
URL carrying the freshly generated session id as a query parameter, and it
is emitted before any `message` or `ping` event. -/
theorem C1_sse_first_event_is_endpoint (req : SseRequestInfo) (session_id : String)
    (sessions : Sessions) (cycles : List (CycleInput × Bool)) :
    ∃ base : String,
      (mcp_sse_run req session_id sessions cycles).1
        = SseEvent.endpoint (base ++ "/mcp/messages?session_id=" ++ session_id)
            :: (runCycles cycles).1
      ∧ ∀ e ∈ (runCycles cycles).1, (∃ m, e = SseEvent.message m) ∨ e = SseEvent.ping :=
  ⟨_, rfl, runCycles_events cycles⟩

/-- C2 counterexample: a body that parses as JSON but not as a JSON object
(here the array `[]`) makes `body.get("method", "unknown")` raise an
uncaught `AttributeError`: the endpoint answers HTTP 500, nothing is
enqueued and the dispatcher is never reached — dual delivery fails for a
body that parses as JSON. -/
theorem C2_counterexample_nondict_body :
    (mcp_messages dbSample oracle0 MCPActivityLog.init none
        [("s1", ({ maxsize := 0, items := [] } : AQueue Json))] "s1"
        (some (Json.arr []))).result
      = HttpResult.httpError 500 "Internal Server Error"
    ∧ (mcp_messages dbSample oracle0 MCPActivityLog.init none
        [("s1", ({ maxsize := 0, items := [] } : AQueue Json))] "s1"
        (some (Json.arr []))).sessions
      = [("s1", { maxsize := 0, items := [] })]
    ∧ (mcp_messages dbSample oracle0 MCPActivityLog.init none
        [("s1", ({ maxsize := 0, items := [] } : AQueue Json))] "s1"
        (some (Json.arr []))).dispatched = false :=
  ⟨rfl, rfl, rfl⟩

/-- C2 (amended): for every POST to `/mcp/messages` with a registered
session id and a body that parses as a JSON object whose `method` value is
hashable (not a list or dict), the dispatcher's envelope is both enqueued
onto that session's queue and returned synchronously, and the enqueued
envelope equals the one returned; a body parsing to a non-object JSON value
crashes the handler with an uncaught `AttributeError` — HTTP 500, nothing
enqueued, no dispatch. -/
theorem C2_amended_dual_delivery (db : DB) (oracle : QueryOracle) (log : MCPActivityLog)
    (ip : Option String) (sessions : Sessions) (sid : String) (q : AQueue Json)
    (bfs : List (String × Json))
    (hq : sessions.lookup sid = some q)
    (hm : methodHashable (((Json.obj bfs).get "method").getD (Json.str "")) = true) :
    (∃ envelope : Json, ∃ inv : Bool,
      handle_request db oracle (Json.obj bfs) = Except.ok (envelope, inv)
      ∧ (mcp_messages db oracle log ip sessions sid (some (Json.obj bfs))).result
          = HttpResult.json 200 envelope
      ∧ (mcp_messages db oracle log ip sessions sid
          (some (Json.obj bfs))).sessions.lookup sid = some (q.put envelope))
    ∧ ∀ b2 : Json, (∀ fs, b2 ≠ Json.obj fs) →
        (mcp_messages db oracle log ip sessions sid (some b2)).result
            = HttpResult.httpError 500 "Internal Server Error"
        ∧ (mcp_messages db oracle log ip sessions sid (some b2)).sessions = sessions
        ∧ (mcp_messages db oracle log ip sessions sid (some b2)).dispatched = false := by
  have hsome : (sessions.lookup sid).isNone = false := by rw [hq]; rfl
  obtain ⟨⟨envelope, inv⟩, hres⟩ := handle_request_ok_of_hashable db oracle bfs hm
  constructor
  · refine ⟨envelope, inv, hres, ?_, ?_⟩
    · simp [mcp_messages, hsome, hres]
    · simp only [mcp_messages, hsome, Bool.false_eq_true, if_false, hres]
      exact lookup_sessionsPut sessions sid q _ hq
  · intro b2 hb2
    rcases b2 with _ | b | n | s | xs | fs
    · exact ⟨by simp [mcp_messages, hsome], by simp [mcp_messages, hsome],
        by simp [mcp_messages, hsome]⟩
    · exact ⟨by simp [mcp_messages, hsome], by simp [mcp_messages, hsome],
        by simp [mcp_messages, hsome]⟩
    · exact ⟨by simp [mcp_messages, hsome], by simp [mcp_messages, hsome],
        by simp [mcp_messages, hsome]⟩
    · exact ⟨by simp [mcp_messages, hsome], by simp [mcp_messages, hsome],
        by simp [mcp_messages, hsome]⟩
    · exact ⟨by simp [mcp_messages, hsome], by simp [mcp_messages, hsome],
        by simp [mcp_messages, hsome]⟩
    · exact absurd rfl (hb2 fs)

/-- Witness for the amended C2 at a concrete session and object body. -/
theorem C2_amended_dual_delivery_witness :
    ([("s1", ({ maxsize := 0, items := [] } : AQueue Json))] : Sessions).lookup "s1"
        = some { maxsize := 0, items := [] }
    ∧ methodHashable (((Json.obj [("method", Json.str "initialize"),
        ("id", Json.num 1)]).get "method").getD (Json.str "")) = true
    ∧ (∃ envelope : Json, ∃ inv : Bool,
        handle_request dbSample oracle0
            (Json.obj [("method", Json.str "initialize"), ("id", Json.num 1)])
          = Except.ok (envelope, inv)
        ∧ (mcp_messages dbSample oracle0 MCPActivityLog.init none
            [("s1", { maxsize := 0, items := [] })] "s1"
            (some (Json.obj [("method", Json.str "initialize"),
              ("id", Json.num 1)]))).result
            = HttpResult.json 200 envelope
        ∧ (mcp_messages dbSample oracle0 MCPActivityLog.init none
            [("s1", { maxsize := 0, items := [] })] "s1"
            (some (Json.obj [("method", Json.str "initialize"),
              ("id", Json.num 1)]))).sessions.lookup "s1"
            = some (AQueue.put { maxsize := 0, items := [] } envelope)) :=
  ⟨rfl, rfl, (C2_amended_dual_delivery dbSample oracle0 MCPActivityLog.init none
    [("s1", { maxsize := 0, items := [] })] "s1" { maxsize := 0, items := [] }
    [("method", Json.str "initialize"), ("id", Json.num 1)] rfl rfl).1⟩

/-- C3: a POST to `/mcp/messages` whose session id is not in the session map
fails with a 404 transport error before any dispatch, no session is
implicitly created, and a closed SSE connection's cleanup indeed leaves its
id unregistered. -/
theorem C3_unknown_session_404 (db : DB) (oracle : QueryOracle) (log : MCPActivityLog)
    (ip : Option String) (sessions : Sessions) (sid : String) (body : Option Json)
    (h : sessions.lookup sid = none) :
    (mcp_messages db oracle log ip sessions sid body).result
        = HttpResult.httpError 404 "Session not found. Connect to /mcp/sse first."
    ∧ (mcp_messages db oracle log ip sessions sid body).dispatched = false
    ∧ (mcp_messages db oracle log ip sessions sid body).sessions = sessions
    ∧ ∀ (req : SseRequestInfo) (s0 : Sessions) (cycles : List (CycleInput × Bool)),
        (mcp_sse_run req sid s0 cycles).2.lookup sid = none := by
  have hnone : (sessions.lookup sid).isNone = true := by rw [h]; rfl
  refine ⟨?_, ?_, ?_, fun req s0 cycles => lookup_filter_ne _ sid⟩
  · simp [mcp_messages, hnone]
  · simp [mcp_messages, hnone]
  · simp [mcp_messages, hnone]

/-- Witness for C3 at a concrete unregistered session id. -/
theorem C3_unknown_session_404_witness :
    ([] : Sessions).lookup "deadbeef" = none
    ∧ (mcp_messages dbSample oracle0 MCPActivityLog.init none [] "deadbeef"
        (some (Json.obj []))).result
        = HttpResult.httpError 404 "Session not found. Connect to /mcp/sse first." :=
  ⟨rfl, (C3_unknown_session_404 dbSample oracle0 MCPActivityLog.init none [] "deadbeef"
    (some (Json.obj [])) rfl).1⟩

/-- C4: an unparseable body yields the -32700 envelope with null id: on
`POST /mcp` it is returned directly with HTTP 200; on the messages endpoint
(with a registered session) it is enqueued to the session's queue while the
POST caller receives a distinct error acknowledgement. -/
theorem C4_parse_error_32700 (db : DB) (oracle : QueryOracle) (log : MCPActivityLog)
    (ip : Option String) (sessions : Sessions) (sid : String) (q : AQueue Json)
    (hq : sessions.lookup sid = some q) :
    mcp_endpoint db oracle none = HttpResult.json 200 parseErrorEnvelope
    ∧ parseErrorEnvelope.get "id" = some Json.null
    ∧ (parseErrorEnvelope.get "error").bind (fun e => e.get "code")
        = some (Json.num (-32700))
    ∧ (mcp_messages db oracle log ip sessions sid none).sessions.lookup sid
        = some (q.put parseErrorEnvelope)
    ∧ (mcp_messages db oracle log ip sessions sid none).result
        = HttpResult.json 200 (Json.obj [("status", Json.str "error"),
            ("message", Json.str "Parse error")])
    ∧ HttpResult.json 200 (Json.obj [("status", Json.str "error"),
        ("message", Json.str "Parse error")])
        ≠ HttpResult.json 200 parseErrorEnvelope := by
  have hsome : (sessions.lookup sid).isNone = false := by rw [hq]; rfl
  refine ⟨rfl, rfl, rfl, ?_, ?_, ?_⟩
  · simp only [mcp_messages, hsome, Bool.false_eq_true, if_false]
    exact lookup_sessionsPut sessions sid q _ hq
  · simp [mcp_messages, hsome]
  · simp [parseErrorEnvelope]

/-- Witness for C4 at a concrete registered session. -/
theorem C4_parse_error_32700_witness :
    ([("s1", ({ maxsize := 0, items := [] } : AQueue Json))] : Sessions).lookup "s1"
        = some { maxsize := 0, items := [] }
    ∧ (mcp_messages dbSample oracle0 MCPActivityLog.init none
        [("s1", { maxsize := 0, items := [] })] "s1" none).sessions.lookup "s1"
        = some (AQueue.put { maxsize := 0, items := [] } parseErrorEnvelope) :=
  ⟨rfl, ((C4_parse_error_32700 dbSample oracle0 MCPActivityLog.init none
    [("s1", { maxsize := 0, items := [] })] "s1" { maxsize := 0, items := [] }
    rfl).2.2.2).1⟩

/-- C8 counterexample: at a keepalive cycle where the peer is already
disconnected, the loop emits the `ping` and `continue`s without checking
for disconnect — it does not break, and it even emits a further `message`
event on the following cycle. -/
theorem C8_counterexample_ping_skips_disconnect_check :
    runCycles [(CycleInput.timeout, true)] = ([SseEvent.ping], false)
    ∧ runCycles [(CycleInput.timeout, true), (CycleInput.msg (Json.str "r"), false)]
        = ([SseEvent.ping, SseEvent.message (Json.str "r")], false) :=
  ⟨rfl, rfl⟩

/-- C8 (amended): only after a `message` emission does the loop check for
peer disconnect and break; after a `ping` emission it continues without
checking. Whenever the generator closes, the scoped cleanup removes the
session id from the session map. -/
theorem C8_amended_disconnect_check_only_after_message (m : Json) (d : Bool)
    (rest : List (CycleInput × Bool)) (req : SseRequestInfo) (sid : String)
    (sessions : Sessions) (cycles : List (CycleInput × Bool)) :
    runCycles ((CycleInput.msg m, true) :: rest) = ([SseEvent.message m], true)
    ∧ runCycles ((CycleInput.timeout, d) :: rest)
        = (SseEvent.ping :: (runCycles rest).1, (runCycles rest).2)
    ∧ (mcp_sse_run req sid sessions cycles).2.lookup sid = none :=
  ⟨rfl, rfl, lookup_filter_ne _ sid⟩

/-- C5 counterexample: a `tools/call` whose `name` is the empty string (a
name matching no live capability) yields error -32000, but with the message
"Tool name is required" instead of the claimed
"Tool '' not found or not live" — the truthiness guard fires first. -/
theorem C5_counterexample_empty_name :
    handle_request { capabilities := [], connections := [] } oracle0
        (Json.obj [("method", Json.str "tools/call"), ("id", Json.num 1),
                   ("params", Json.obj [("name", Json.str "")])])
      = Except.ok (rpcError (Json.num 1) (-32000) "Tool name is required", false)
    ∧ "Tool name is required" ≠ "Tool '' not found or not live" :=
  ⟨rfl, by decide⟩

/-- C5 (amended): for every `tools/call` whose name is a non-empty string
matching (exact, case-sensitive) no live capability, the dispatcher returns
error -32000 with message "Tool '<name>' not found or not live" and no SQL
execution is attempted; a missing or empty name still fails with -32000 and
no execution, but with the message "Tool name is required". -/
theorem C5_amended_unknown_tool_error (db : DB) (oracle : QueryOracle) (rid : Json)
    (s : String) (pfs : List (String × Json))
    (hs : s ≠ "")
    (hname : pfs.lookup "name" = some (Json.str s))
    (hnone : ∀ c ∈ db.capabilities, ¬(c.name = s ∧ c.is_live = true)) :
    handle_request db oracle
        (Json.obj [("method", Json.str "tools/call"), ("id", rid),
                   ("params", Json.obj pfs)])
      = Except.ok (rpcError rid (-32000) ("Tool '" ++ s ++ "' not found or not live"),
          false) := by
  have hfind : db.capabilities.find?
      (fun c => Json.eqStr (Json.str s) c.name && c.is_live) = none := by
    rw [List.find?_eq_none]
    intro c hc
    have h2 := hnone c hc
    simp only [Json.eqStr, Bool.and_eq_true, beq_iff_eq, not_and] at h2 ⊢
    intro h4 h5
    exact h2 h4.symm h5
  have htr : (Json.str s).truthy = true := by
    simp [Json.truthy, hs]
  have hcall : handle_tools_call db oracle (some (Json.obj pfs))
      = (Except.error ("Tool '" ++ s ++ "' not found or not live"), false) := by
    simp only [handle_tools_call, Json.get, hname, Option.getD_some, htr,
      Bool.not_true, Bool.false_eq_true, if_false, hfind, Json.pyStr]
  have hm : (Json.obj [("method", Json.str "tools/call"), ("id", rid),
      ("params", Json.obj pfs)]).get "method" = some (Json.str "tools/call") := rfl
  have hid : (Json.obj [("method", Json.str "tools/call"), ("id", rid),
      ("params", Json.obj pfs)]).get "id" = some rid := rfl
  have hp : (Json.obj [("method", Json.str "tools/call"), ("id", rid),
      ("params", Json.obj pfs)]).get "params" = some (Json.obj pfs) := rfl
  have e1 : Json.eqStr (Json.str "tools/call") "initialize" = false := rfl
  have e2 : Json.eqStr (Json.str "tools/call") "tools/list" = false := rfl
  have e3 : Json.eqStr (Json.str "tools/call") "tools/call" = true := rfl
  simp only [handle_request, hm, hid, hp, Option.getD_some, e1, e2, e3,
    Bool.false_eq_true, if_false, if_true]
  rw [hcall]

/-- Witness for the amended C5 at a concrete unknown tool name. -/
theorem C5_amended_unknown_tool_error_witness :
    ("missing_tool" : String) ≠ ""
    ∧ ([("name", Json.str "missing_tool")] : List (String × Json)).lookup "name"
        = some (Json.str "missing_tool")
    ∧ handle_request { capabilities := [], connections := [] } oracle0
        (Json.obj [("method", Json.str "tools/call"), ("id", Json.null),
                   ("params", Json.obj [("name", Json.str "missing_tool")])])
      = Except.ok (rpcError Json.null (-32000)
          "Tool 'missing_tool' not found or not live", false) :=
  ⟨by decide, rfl,
    C5_amended_unknown_tool_error { capabilities := [], connections := [] } oracle0
      Json.null "missing_tool" [("name", Json.str "missing_tool")]
      (by decide) rfl (by simp)⟩

theorem toolParamStep_eq (acc : List (String × Json)) (req : List String) (p : ParamDef)
    (hl : acc.lookup p.name = none) :
    toolParamStep (acc, req) p
      = (acc ++ [(p.name, paramSchemaSpec p)],
         if p.required then req ++ [p.name] else req) := by
  have hiss : (acc.lookup p.name).isSome = false := by rw [hl]; rfl
  unfold toolParamStep dictInsert
  rw [hiss]
  by_cases hd : p.type = "date" <;> simp [paramSchemaSpec, hd]

theorem foldl_toolParamStep (params : List ParamDef) (acc : List (String × Json))
    (req : List String)
    (hfresh : ∀ p ∈ params, acc.lookup p.name = none)
    (hnodup : (params.map (fun p => p.name)).Nodup) :
    params.foldl toolParamStep (acc, req)
      = (acc ++ params.map (fun p => (p.name, paramSchemaSpec p)),
         req ++ (params.filter (fun p => p.required)).map (fun p => p.name)) := by
  induction params generalizing acc req with
  | nil => simp
  | cons p rest ih =>
      rw [List.foldl_cons,
        toolParamStep_eq acc req p (hfresh p (List.mem_cons_self p rest))]
      rw [List.map_cons] at hnodup
      have hnd := List.nodup_cons.mp hnodup
      have hfresh2 : ∀ q ∈ rest, (acc ++ [(p.name, paramSchemaSpec p)]).lookup q.name
          = none := by
        intro q hq
        rw [lookup_append_of_none _ _ _ (hfresh q (List.mem_cons_of_mem p hq))]
        have hne : q.name ≠ p.name := by
          intro heq
          exact hnd.1 (heq ▸ List.mem_map_of_mem (fun x => x.name) hq)
        simp [List.lookup_cons, beq_false_of_ne hne]
      rw [ih (acc ++ [(p.name, paramSchemaSpec p)])
        (if p.required then req ++ [p.name] else req) hfresh2 hnd.2]
      by_cases hr : p.required = true <;>
        simp [hr, List.filter_cons, List.append_assoc]

/-- C6: for every live capability whose parameter names are distinct,
`tools/list` synthesizes its tool descriptor with the exact type mapping
string→string, integer→integer, float→number, boolean→boolean, date→string
with format "date", and exactly the parameters whose required flag is true
populate the `required` array, in order. -/
theorem C6_tool_descriptor (cap : Capability)
    (hnodup : (cap.parameters.map (fun p => p.name)).Nodup) :
    capability_to_mcp_tool cap
      = Json.obj [("name", Json.str cap.name),
          ("description", Json.str cap.description),
          ("inputSchema", Json.obj [("type", Json.str "object"),
            ("properties",
              Json.obj (cap.parameters.map (fun p => (p.name, paramSchemaSpec p)))),
            ("required",
              Json.arr (((cap.parameters.filter (fun p => p.required)).map
                (fun p => p.name)).map Json.str))])]
    ∧ json_type_map "string" = "string"
    ∧ json_type_map "integer" = "integer"
    ∧ json_type_map "float" = "number"
    ∧ json_type_map "boolean" = "boolean"
    ∧ json_type_map "date" = "string"
    ∧ (∀ p : ParamDef, p.type = "date" →
        paramSchemaSpec p = Json.obj [("type", Json.str "string"),
          ("description", Json.str p.description), ("format", Json.str "date")])
    ∧ (∀ db : DB, cap ∈ db.capabilities → cap.is_live = true →
        ∃ tools : List Json,
          handle_tools_list db = Json.obj [("tools", Json.arr tools)]
          ∧ capability_to_mcp_tool cap ∈ tools) := by
  refine ⟨?_, rfl, rfl, rfl, rfl, rfl, ?_, ?_⟩
  · unfold capability_to_mcp_tool
    rw [foldl_toolParamStep cap.parameters [] [] (by simp) hnodup]
    simp
  · intro p hd
    simp [paramSchemaSpec, json_type_map, hd]
  · intro db hmem hlive
    refine ⟨(get_live_capabilities db).map capability_to_mcp_tool, rfl, ?_⟩
    exact List.mem_map_of_mem capability_to_mcp_tool
      (by simpa [get_live_capabilities, List.mem_filter] using ⟨hmem, hlive⟩)

/-- Witness for C6 at a capability with one parameter of each type. -/
theorem C6_tool_descriptor_witness :
    (capTyped.parameters.map (fun p => p.name)).Nodup
    ∧ capability_to_mcp_tool capTyped
      = Json.obj [("name", Json.str capTyped.name),
          ("description", Json.str capTyped.description),
          ("inputSchema", Json.obj [("type", Json.str "object"),
            ("properties",
              Json.obj (capTyped.parameters.map (fun p => (p.name, paramSchemaSpec p)))),
            ("required",
              Json.arr (((capTyped.parameters.filter (fun p => p.required)).map
                (fun p => p.name)).map Json.str))])] :=
  ⟨by decide, (C6_tool_descriptor capTyped (by decide)).1⟩

/-- C7 counterexample: `capPhantom` declares a required parameter `x` with
no default, `x` is absent from the arguments — yet the call succeeds (a
`result`, no `error`) and the backing query collaborator is invoked,
because `validate_parameters` only checks parameters that occur in the SQL
template and `x` does not. -/
theorem C7_counterexample_phantom_required_param :
    (handle_request dbSample oracleOk reqPhantomCall).toOption.map Prod.snd = some true
    ∧ (handle_request dbSample oracleOk reqPhantomCall).toOption.map
        (fun r => Json.get r.1 "error") = some none
    ∧ (handle_request dbSample oracleOk reqPhantomCall).toOption.map
        (fun r => (Json.get r.1 "result").isSome) = some true :=
  ⟨rfl, rfl, rfl⟩

theorem prepareParams_error_of_missing_required (provided : List (String × Json))
    (defs : List ParamDef) (pn : String) (expected : List String)
    (hmem : pn ∈ expected)
    (hprov : provided.lookup pn = none)
    (hreq : ((lookupDef defs pn).map (fun p => p.required)).getD true = true)
    (hdef : (lookupDef defs pn).bind (fun p => p.default) = none) :
    ∃ e, prepareParams provided defs expected = Except.error e := by
  induction expected with
  | nil => simp at hmem
  | cons q rest ih =>
      rcases List.mem_cons.mp hmem with hq | hq
      · subst hq
        refine ⟨"Required parameter '" ++ pn ++ "' not provided", ?_⟩
        simp only [prepareParams, hprov, hdef, hreq, Bool.not_true, Bool.false_eq_true,
          if_false]
      · obtain ⟨e, he⟩ := ih hq
        rcases hpq : provided.lookup q with _ | v
        · rcases hd : (lookupDef defs q).bind (fun p => p.default) with _ | d
          · by_cases hr : (((lookupDef defs q).map (fun p => p.required)).getD true)
                = true
            · exact ⟨"Required parameter '" ++ q ++ "' not provided",
                by simp [prepareParams, hpq, hd, hr]⟩
            · simp only [Bool.not_eq_true] at hr
              exact ⟨e, by simp [prepareParams, hpq, hd, hr, he]⟩
          · rcases hcv : convert_type d (((lookupDef defs q).map
                (fun p => p.type)).getD "string") with e2 | v2
            · exact ⟨e2, by simp [prepareParams, hpq, hd, hcv]⟩
            · exact ⟨e, by simp [prepareParams, hpq, hd, hcv, he]⟩
        · by_cases hnull : v.isNull = true
          · exact ⟨e, by simp [prepareParams, hpq, hnull, he]⟩
          · simp only [Bool.not_eq_true] at hnull
            rcases hcv : convert_type v (((lookupDef defs q).map
                (fun p => p.type)).getD "string") with e2 | v2
            · exact ⟨e2, by simp [prepareParams, hpq, hnull, hcv]⟩
            · exact ⟨e, by simp [prepareParams, hpq, hnull, hcv, he]⟩

/-- C7 (amended): a `tools/call` on a live capability fails with -32000 and
never invokes the backing query collaborator whenever some parameter that
occurs in the SQL template is effectively required (its definition — or the
absence of one — makes it required with no default) and is not supplied in
the arguments. A required parameter that does not occur in the template is
not checked (see the counterexample). -/
theorem C7_amended_missing_template_param (db : DB) (oracle : QueryOracle) (rid : Json)
    (s : String) (args : List (String × Json)) (cap : Capability) (pn : String)
    (hs : s ≠ "")
    (hfind : db.capabilities.find? (fun c => Json.eqStr (Json.str s) c.name && c.is_live)
        = some cap)
    (conn : DatabaseConnection)
    (hconn : db.connections.find? (fun c2 => c2.id == cap.connection_id) = some conn)
    (hmem : pn ∈ extract_parameters cap.sql_template)
    (hprov : args.lookup pn = none)
    (hreq : ((lookupDef cap.parameters pn).map (fun p => p.required)).getD true = true)
    (hdef : (lookupDef cap.parameters pn).bind (fun p => p.default) = none) :
    ∃ msg, handle_request db oracle
        (Json.obj [("method", Json.str "tools/call"), ("id", rid),
          ("params", Json.obj [("name", Json.str s), ("arguments", Json.obj args)])])
      = Except.ok (rpcError rid (-32000) ("Query execution failed: " ++ msg),
          false) := by
  obtain ⟨e, he⟩ := prepareParams_error_of_missing_required args cap.parameters pn
    (extract_parameters cap.sql_template) hmem hprov hreq hdef
  have hexec : SQLExecutor.execute oracle cap.sql_template args cap.parameters
      = ({ success := false, data := none, error := some e }, false) := by
    simp only [SQLExecutor.execute, validate_parameters, he]
  have htr : (Json.str s).truthy = true := by
    simp [Json.truthy, hs]
  have hcall : handle_tools_call db oracle
      (some (Json.obj [("name", Json.str s), ("arguments", Json.obj args)]))
      = (Except.error ("Query execution failed: " ++ e), false) := by
    have hn : (Json.obj [("name", Json.str s),
        ("arguments", Json.obj args)]).get "name" = some (Json.str s) := rfl
    have ha : (Json.obj [("name", Json.str s),
        ("arguments", Json.obj args)]).get "arguments" = some (Json.obj args) := rfl
    simp only [handle_tools_call, hn, ha, Option.getD_some, htr, Bool.not_true,
      Bool.false_eq_true, if_false, hfind, hconn, hexec, Option.getD_some]
  refine ⟨e, ?_⟩
  have hm : (Json.obj [("method", Json.str "tools/call"), ("id", rid),
      ("params", Json.obj [("name", Json.str s), ("arguments", Json.obj args)])]).get
      "method" = some (Json.str "tools/call") := rfl
  have hid : (Json.obj [("method", Json.str "tools/call"), ("id", rid),
      ("params", Json.obj [("name", Json.str s), ("arguments", Json.obj args)])]).get
      "id" = some rid := rfl
  have hp : (Json.obj [("method", Json.str "tools/call"), ("id", rid),
      ("params", Json.obj [("name", Json.str s), ("arguments", Json.obj args)])]).get
      "params" = some (Json.obj [("name", Json.str s), ("arguments", Json.obj args)]) :=
    rfl
  have e1 : Json.eqStr (Json.str "tools/call") "initialize" = false := rfl
  have e2 : Json.eqStr (Json.str "tools/call") "tools/list" = false := rfl
  have e3 : Json.eqStr (Json.str "tools/call") "tools/call" = true := rfl
  simp only [handle_request, hm, hid, hp, Option.getD_some, e1, e2, e3,
    Bool.false_eq_true, if_false, if_true]
  rw [hcall]

/-- Witness for the amended C7: calling `capTemplated` (whose template does
use the required `x`) with empty arguments fails without invoking the
query. -/
theorem C7_amended_missing_template_param_witness :
    ("x" : String) ∈ extract_parameters capTemplated.sql_template
    ∧ ∃ msg, handle_request dbSample oracleOk
        (Json.obj [("method", Json.str "tools/call"), ("id", Json.num 2),
          ("params", Json.obj [("name", Json.str "by_x"),
            ("arguments", Json.obj [])])])
      = Except.ok (rpcError (Json.num 2) (-32000)
          ("Query execution failed: " ++ msg), false) :=
  ⟨by decide,
    C7_amended_missing_template_param dbSample oracleOk (Json.num 2) "by_x" [] capTemplated
      "x" (by decide) rfl { id := 1, db_type := "sqlite", connection_string := "cs" } rfl
      (by decide) rfl rfl rfl⟩

theorem forward_messages_never_finishes (st : FwdState) :
    (forward_messages_step st).1 ≠ TaskStep.finish := by
  rcases st with ⟨queue, endpoint⟩
  cases queue with
  | nil => simp [forward_messages_step]
  | cons m rest =>
      cases endpoint with
      | none => simp [forward_messages_step]
      | some url => simp [forward_messages_step]

theorem bridgeEof_iterate_fix (n : Nat) :
    (bridgeStep decode0)^[n + 1] bridgeEof = bridgeStep decode0 bridgeEof := by
  induction n with
  | zero => rfl
  | succ k ih =>
      rw [Function.iterate_succ_apply', ih]
      rfl

theorem bridgeEof_never_done (n : Nat) :
    bridgeDone ((bridgeStep decode0)^[n] bridgeEof) = false := by
  cases n with
  | zero => rfl
  | succ k => rw [bridgeEof_iterate_fix k]; rfl

/-- C9 counterexample: with stdin at EOF, the forwarder idle and the SSE
stream open, the reader task returns and is marked done after one
scheduling round, yet the bridge is not done, and further rounds change
nothing: EOF terminates only the reader task, not the bridge. -/
theorem C9_counterexample_eof_does_not_stop_bridge :
    read_stdin_step decode0 bridgeEof.stdin = (TaskStep.finish, [])
    ∧ (bridgeStep decode0 bridgeEof).stdinDone = true
    ∧ bridgeDone (bridgeStep decode0 bridgeEof) = false
    ∧ bridgeStep decode0 (bridgeStep decode0 bridgeEof) = bridgeStep decode0 bridgeEof :=
  ⟨rfl, rfl, rfl, rfl⟩

/-- C9 (amended): EOF on the local input stream terminates the stdin-reader
task only; the bridge process keeps running, because `asyncio.gather` waits
for all three tasks and the forwarder's loop has no return path — from the
EOF state the bridge is not done after any number of scheduling rounds. -/
theorem C9_amended_eof_stops_only_reader (decode : RawDecoder) (buf : String)
    (st : FwdState) (n : Nat) :
    read_stdin_step decode { pending := [], buffer := buf } = (TaskStep.finish, [])
    ∧ (forward_messages_step st).1 ≠ TaskStep.finish
    ∧ bridgeDone ((bridgeStep decode0)^[n] bridgeEof) = false :=
  ⟨rfl, forward_messages_never_finishes st, bridgeEof_never_done n⟩

/-- C10: the queue `mcp_sse` registers for a session is `asyncio.Queue()`
with `maxsize = 0` — unbounded, never full, so enqueuing on the messages
endpoint neither drops nor would block, and items are retained in FIFO
order; the silent drop-on-full policy applies only to the activity-log
listener queues, created bounded at 100. -/
theorem C10_session_queue_unbounded (req : SseRequestInfo) (sid : String)
    (sessions : Sessions) (q : AQueue Json) (msgs : List Json)
    (l : MCPActivityLog) (e : LogEntry) (ql : AQueue LogEntry)
    (hq : q.maxsize = 0)
    (hql : ql.maxsize = 100) (hfull : ql.items.length = 100) :
    ((mcp_sse_accept req sid sessions).1).lookup sid
        = some { maxsize := 0, items := [] }
    ∧ q.full = false
    ∧ (msgs.foldl AQueue.put q).items = q.items ++ msgs
    ∧ (MCPActivityLog.add_listener l).2.maxsize = 100
    ∧ ql.put_nowait e = none
    ∧ (MCPActivityLog.log { l with listeners := [ql] } e).listeners = [ql] := by
  have hpn : ql.put_nowait e = none := by
    simp [AQueue.put_nowait, AQueue.full, hql, hfull]
  refine ⟨lookup_dictInsert sessions sid _, ?_, (foldl_put msgs q).1, rfl, hpn, ?_⟩
  · simp [AQueue.full, hq]
  · simp [MCPActivityLog.log, hpn]

/-- Witness for C10 at a concrete unbounded session queue and a concrete
full listener queue. -/
theorem C10_session_queue_unbounded_witness :
    (({ maxsize := 0, items := [Json.null] } : AQueue Json)).maxsize = 0
    ∧ qlFull.maxsize = 100
    ∧ qlFull.items.length = 100
    ∧ ([Json.num 1, Json.num 2].foldl AQueue.put
        { maxsize := 0, items := [Json.null] }).items
        = [Json.null] ++ [Json.num 1, Json.num 2]
    ∧ qlFull.put_nowait entrySample = none := by
  have h := C10_session_queue_unbounded reqPlain "s" [] { maxsize := 0, items := [Json.null] }
    [Json.num 1, Json.num 2] MCPActivityLog.init entrySample qlFull
    rfl rfl (by simp [qlFull])
  exact ⟨rfl, rfl, by simp [qlFull], h.2.2.1, h.2.2.2.2.1⟩

end MCPGen
